import Mathlib

/-!
Verification development for the well-log converter (`src/app.py`).

The program has four core functions: `get_depth_column` (depth-column
resolver), `plot_basic_logs` (curve plotter), `las_to_csv` (LAS→Table
converter) and `csv_to_las` (Table→LAS converter).  This file embeds
them shallowly: a pandas `DataFrame` becomes an ordered association
list of named columns, a lasio `LASFile` becomes a record of a
well-info section and a list of curves, and the behaviour of the
pandas / lasio / plotly operations the program calls is modelled by
small Lean functions whose doc comments state the library behaviour
they capture.  Numeric cell values are modelled as rationals; the
program never computes with them, it only moves them around.
-/

set_option autoImplicit false

/-- Cell values of a tabular dataset.  The program only copies values
between containers, so the carrier is irrelevant; rationals stand in
for the numeric values of a well log. -/
abbrev Val := Rat

/-- A pandas `DataFrame` as the program uses it: an ordered sequence of
named columns (`df.columns` order) with their value series. -/
structure Df where
  cols : List (String × List Val)
  deriving Repr, DecidableEq

/-- The column names of a dataframe, in order (pandas `df.columns`). -/
def Df.columns (df : Df) : List String :=
  df.cols.map Prod.fst

/-- Column lookup, pandas `df[name]`.  Returns the values of the first
column with that name, `[]` when absent (the program only looks up
names it has verified, or that the resolver produced). -/
def Df.col (df : Df) (n : String) : List Val :=
  (((df.cols.find? (fun p => p.1 = n)).map Prod.snd)).getD []

/-- Does `needle` occur at the head of `haystack`? (helper for the
substring test below). -/
def headMatch : List Char → List Char → Bool
  | [], _ => true
  | _ :: _, [] => false
  | a :: as, b :: bs => a = b && headMatch as bs

/-- Does `needle` occur as a contiguous run inside `haystack`? -/
def occursIn (needle haystack : List Char) : Bool :=
  match haystack with
  | [] => needle.isEmpty
  | _ :: t => headMatch needle haystack || occursIn needle t

/-- Python `needle.lower() in col.lower()`: case-insensitive substring
containment of `needle` in `col`. -/
def strContains (col needle : String) : Bool :=
  occursIn (needle.toList.map Char.toLower) (col.toList.map Char.toLower)

/-- The fixed depth-name vocabulary of `get_depth_column`
(`src/app.py:14`), in priority order. -/
def depth_columns : List String :=
  ["DEPTH", "MD", "TVD", "DEPT", "PROFUNDIDADE", "PROF"]

/-- Does a column name match some vocabulary entry as a
case-insensitive substring? (the predicate of the resolver's second
loop, `src/app.py:23`). -/
def subMatch (col : String) : Bool :=
  depth_columns.any (fun d => strContains col d)

/-- The depth-column resolver `get_depth_column` (`src/app.py:9-27`):
first vocabulary name present verbatim among the columns; otherwise the
first column whose name contains a vocabulary entry case-insensitively;
otherwise the first column.  Python raises `IndexError` on a dataframe
with no columns (`df.columns[0]`); that is the `none` case here. -/
def get_depth_column (df : Df) : Option String :=
  match depth_columns.find? (fun c => df.columns.contains c) with
  | some c => some c
  | none =>
    match df.columns.find? subMatch with
    | some col => some col
    | none => df.columns.head?

example : get_depth_column ⟨[("GR", []), ("DEPTH", [])]⟩ = some "DEPTH" := by decide
example : get_depth_column ⟨[("FOO", []), ("MD_depth_m", [])]⟩ = some "MD_depth_m" := by decide
example : get_depth_column ⟨[("FOO", []), ("BAR", [])]⟩ = some "FOO" := by decide

/-- The fixed curve vocabulary of the plotter (`src/app.py:50`). -/
def available_curves : List String :=
  ["GR", "RHOB", "NPHI", "RT", "DT", "CALI", "SP"]

/-- The fixed 7-color palette of the plotter (`src/app.py:67`). -/
def colors : List String :=
  ["#1f77b4", "#ff7f0e", "#2ca02c", "#d62728", "#9467bd", "#8c564b", "#e377c2"]

/-- Python `colors[i % len(colors)]` (`src/app.py:75`); total because
`i % 7 < 7`, the default is never reached. -/
def colorAt (i : Nat) : String :=
  colors.getD (i % colors.length) ""

/-- One `go.Scatter` line trace of the plotter (`src/app.py:70-77`):
curve values on x, depth values on y, the curve name, and the palette
color chosen by position. -/
structure Trace where
  x : List Val
  y : List Val
  name : String
  color : String
  deriving Repr, DecidableEq

/-- The chart object the plotter returns (`go.Figure`): the trace list
in insertion order, plus the one layout fact the spec treats as
behavioural — the y axis is reversed (`autorange="reversed"`,
`src/app.py:102`). -/
structure Fig where
  traces : List Trace
  yaxisReversed : Bool
  deriving Repr, DecidableEq

/-- The trace-building loop `for i, curve in enumerate(curves_to_plot)`
(`src/app.py:69-77`), carrying the running index for the color. -/
def mkTraces (df : Df) (depth_col : String) : Nat → List String → List Trace
  | _, [] => []
  | i, c :: rest =>
    { x := df.col c, y := df.col depth_col, name := c, color := colorAt i }
      :: mkTraces df depth_col (i + 1) rest

/-- The curve plotter `plot_basic_logs` (`src/app.py:47-118`): select
the vocabulary curves present in the dataframe; if none, fall back to
all columns with the depth column removed (`list.remove` removes the
first occurrence; the guard makes it total); if still none, return
`None`; otherwise build one trace per curve with the palette cycling by
position, against a reversed depth axis. -/
def plot_basic_logs (df : Df) (depth_col : String) : Option Fig :=
  let curves0 := available_curves.filter (fun c => df.columns.contains c)
  let curves_to_plot := if curves0.isEmpty then df.columns.erase depth_col else curves0
  if curves_to_plot.isEmpty then none
  else some { traces := mkTraces df depth_col 0 curves_to_plot, yaxisReversed := true }

/-- One curve of a lasio `LASFile`: mnemonic, unit (`""` is lasio's
default, "no explicit unit") and data, as `append_curve` stores them. -/
structure Curve where
  mnemonic : String
  unit : String
  data : List Val
  deriving Repr, DecidableEq

/-- A lasio `LASFile` as the program uses it: the well-info section as
an ordered key/value list, and the curve list (first curve = depth
index).  Per the spec's collaborator contract (§6), a freshly
constructed document's well-info section holds caller-supplied
metadata only, so a fresh document is modelled with an empty `well`. -/
structure LASFile where
  well : List (String × String)
  curves : List Curve
  deriving Repr, DecidableEq

/-- lasio's declared index unit of a parsed document (`las.index_unit`),
modelled as the unit of the index (first) curve, `""` when there is
none.  The program only branches on its emptiness (`src/app.py:130`). -/
def LASFile.index_unit (las : LASFile) : String :=
  ((las.curves.head?.map Curve.unit)).getD ""

/-- pandas `df.rename(columns={old: new})`: every column named exactly
`old` is renamed to `new`; nothing else changes. -/
def pandasRename (df : Df) (old new : String) : Df :=
  ⟨df.cols.map (fun p => if p.1 = old then (new, p.2) else p)⟩

/-- The LAS→Table converter `las_to_csv` (`src/app.py:120-140`), from
the point where the document is parsed (decode/parse failures are the
library's own errors, reported and returned as `None`; a document with
no curves cannot produce the indexed dataframe and is treated as such a
failure).  `las.df()` returns a dataframe indexed by the first curve,
the index carrying that curve's mnemonic as its name; `reset_index()`
therefore materialises the index as a column named by that mnemonic
(pandas uses the literal name `"index"` only for an unnamed index), and
`rename(columns={'index': depth_name})` renames exactly the columns
literally named `"index"`. -/
def las_to_csv (las : LASFile) : Option Df :=
  match las.curves with
  | [] => none
  | depth :: rest =>
    let depth_name := if las.index_unit = "" then "DEPTH" else las.index_unit
    let df : Df := ⟨(depth.mnemonic, depth.data) :: rest.map (fun c => (c.mnemonic, c.data))⟩
    some (pandasRename df "index" depth_name)

/-- The Table→LAS converter `csv_to_las` (`src/app.py:142-165`), from
the point where the CSV is parsed into a dataframe.  `if well_info:` is
false for both `None` and an empty dict, so both leave the well-info
section untouched; then the resolved depth column is appended with unit
`'m'` and every other column with the default unit.  The resolver's
`IndexError` on a column-less dataframe is caught by the `except` and
surfaces as `None`. -/
def csv_to_las (df : Df) (well_info : Option (List (String × String))) : Option LASFile :=
  match get_depth_column df with
  | none => none
  | some depth_col =>
    some
      { well := well_info.getD []
        curves :=
          { mnemonic := depth_col, unit := "m", data := df.col depth_col }
            :: (df.cols.filter (fun p => ¬ p.1 = depth_col)).map
                (fun p => { mnemonic := p.1, unit := "", data := p.2 }) }

example :
    plot_basic_logs ⟨[("DEPTH", [1]), ("GR", [2]), ("SP", [3])]⟩ "DEPTH" =
      some ⟨[ { x := [2], y := [1], name := "GR", color := "#1f77b4" },
              { x := [3], y := [1], name := "SP", color := "#ff7f0e" } ], true⟩ := by decide

example : plot_basic_logs ⟨[("DEPTH", [1])]⟩ "DEPTH" = none := by decide

example :
    csv_to_las ⟨[("GR", [5]), ("DEPTH", [9])]⟩ (some [("WELL", "W-1")]) =
      some { well := [("WELL", "W-1")],
             curves := [ ⟨"DEPTH", "m", [9]⟩, ⟨"GR", "", [5]⟩ ] } := by decide

example :
    las_to_csv { well := [], curves := [⟨"DEPT", "M", [100]⟩, ⟨"GR", "API", [50]⟩] } =
      some ⟨[("DEPT", [100]), ("GR", [50])]⟩ := by decide

example :
    las_to_csv { well := [], curves := [⟨"DEPTH", "m", [1]⟩, ⟨"index", "", [2]⟩] } =
      some ⟨[("DEPTH", [1]), ("m", [2])]⟩ := by decide

/-- The function `find?` returns the element at the first index where the predicate
holds. -/
theorem find?_of_first {α : Type} (p : α → Bool) :
    ∀ (l : List α) (i : Nat) (hi : i < l.length),
      p (l.get ⟨i, hi⟩) = true →
      (∀ j (hj : j < i), p (l.get ⟨j, Nat.lt_trans hj hi⟩) = false) →
      l.find? p = some (l.get ⟨i, hi⟩) := by
  intro l
  induction l with
  | nil => intro i hi; exact absurd hi (Nat.not_lt_zero i)
  | cons a t ih =>
    intro i hi hp hmin
    cases i with
    | zero => exact List.find?_cons_of_pos _ hp
    | succ n =>
      have ha : p a = false := hmin 0 (Nat.succ_pos n)
      have ht := ih n (Nat.lt_of_succ_lt_succ hi) hp
        (fun j hj => hmin (j + 1) (Nat.succ_lt_succ hj))
      simp [List.find?, ha, ht]

/-- Membership transfers through `List.contains` for strings. -/
theorem contains_eq_true_of_mem {l : List String} {a : String} (h : a ∈ l) :
    l.contains a = true := by
  simpa [List.contains] using h

/-- C5: a dataset with a column named exactly `"DEPTH"` resolves to
`"DEPTH"`, whatever its position: `"DEPTH"` is the first vocabulary
entry, so the exact-match loop returns it before anything else is
consulted. -/
theorem get_depth_column_exact_DEPTH (df : Df) (h : "DEPTH" ∈ df.columns) :
    get_depth_column df = some "DEPTH" := by
  have hc : df.columns.contains "DEPTH" = true := contains_eq_true_of_mem h
  unfold get_depth_column depth_columns
  rw [List.find?_cons_of_pos _ (by simpa using hc)]

/-- C5 witness: the `"DEPTH"` column resolved at a concrete dataset
where it is not the first column. -/
theorem get_depth_column_exact_DEPTH_witness :
    get_depth_column ⟨[("GR", []), ("DEPTH", [])]⟩ = some "DEPTH" :=
  get_depth_column_exact_DEPTH ⟨[("GR", []), ("DEPTH", [])]⟩ (by decide)

/-- C6: with no exact vocabulary match, the resolver returns the first
column (in the dataset's own order) whose name contains a vocabulary
entry case-insensitively, and the first column by position when no
column matches even that. -/
theorem get_depth_column_substring_fallback (df : Df)
    (hex : ∀ c ∈ depth_columns, c ∉ df.columns) :
    (∀ i (hi : i < df.columns.length),
        subMatch (df.columns.get ⟨i, hi⟩) = true →
        (∀ j (hj : j < i), subMatch (df.columns.get ⟨j, Nat.lt_trans hj hi⟩) = false) →
        get_depth_column df = some (df.columns.get ⟨i, hi⟩)) ∧
    ((∀ col ∈ df.columns, subMatch col = false) →
        get_depth_column df = df.columns.head?) := by
  have hnone : depth_columns.find? (fun c => df.columns.contains c) = none := by
    rw [List.find?_eq_none]
    intro c hc
    simpa [List.contains] using hex c hc
  constructor
  · intro i hi hp hmin
    unfold get_depth_column
    rw [hnone, find?_of_first subMatch df.columns i hi hp hmin]
  · intro hall
    have h2 : df.columns.find? subMatch = none := by
      rw [List.find?_eq_none]
      intro col hcol
      simp [hall col hcol]
    unfold get_depth_column
    rw [hnone, h2]

/-- C6 witness: a dataset with columns `["FOO", "MD_depth_m"]` has no
exact vocabulary match; the substring loop returns `"MD_depth_m"`
rather than the first column. -/
theorem get_depth_column_substring_fallback_witness :
    get_depth_column ⟨[("FOO", []), ("MD_depth_m", [])]⟩ = some "MD_depth_m" :=
  (get_depth_column_substring_fallback ⟨[("FOO", []), ("MD_depth_m", [])]⟩
      (by decide)).1 1 (by decide) (by decide)
      (by
        intro j hj
        have hj0 : j = 0 := Nat.lt_one_iff.mp hj
        subst hj0
        exact (by decide : subMatch "FOO" = false))

/-- The resolver returns the name of an existing column whenever the
dataset has one (shared helper behind several theorems below). -/
theorem get_depth_column_spec (df : Df) (h : df.columns ≠ []) :
    ∃ c, get_depth_column df = some c ∧ c ∈ df.columns := by
  unfold get_depth_column
  cases hfind : depth_columns.find? (fun c => df.columns.contains c) with
  | some c =>
    refine ⟨c, rfl, ?_⟩
    have := List.find?_some hfind
    simpa [List.contains] using this
  | none =>
    cases hsub : df.columns.find? subMatch with
    | some col => exact ⟨col, rfl, List.mem_of_find?_eq_some hsub⟩
    | none =>
      cases hcols : df.columns with
      | nil => exact absurd hcols h
      | cons a t => exact ⟨a, by simp [hcols], by simp [hcols]⟩

/-- C7: on a dataset with at least one column the resolver is total and
returns the name of an existing column. -/
theorem get_depth_column_total (df : Df) (h : df.columns ≠ []) :
    ∃ c, get_depth_column df = some c ∧ c ∈ df.columns :=
  get_depth_column_spec df h

/-- C7 witness: totality applied at a one-column dataset with an
unrecognised name. -/
theorem get_depth_column_total_witness :
    ∃ c, get_depth_column ⟨[("ZZZ", [])]⟩ = some c ∧ c ∈ (Df.mk [("ZZZ", [])]).columns :=
  get_depth_column_total ⟨[("ZZZ", [])]⟩ (by decide)

/-- The trace-building loop emits one trace per selected curve, named
after it, in the selection order. -/
theorem mkTraces_map_name (df : Df) (depth_col : String) :
    ∀ (cs : List String) (i : Nat),
      (mkTraces df depth_col i cs).map Trace.name = cs := by
  intro cs
  induction cs with
  | nil => intro i; rfl
  | cons c rest ih => intro i; simp [mkTraces, ih]

/-- The trace-building loop keeps the length of the selection. -/
theorem mkTraces_length (df : Df) (depth_col : String) :
    ∀ (cs : List String) (i : Nat),
      (mkTraces df depth_col i cs).length = cs.length := by
  intro cs
  induction cs with
  | nil => intro i; rfl
  | cons c rest ih => intro i; simp [mkTraces, ih]

/-- The trace at position `j` of a loop started at index `i` carries
the palette color of position `i + j`. -/
theorem mkTraces_get_color (df : Df) (depth_col : String) :
    ∀ (cs : List String) (i j : Nat)
      (hj : j < (mkTraces df depth_col i cs).length),
      ((mkTraces df depth_col i cs).get ⟨j, hj⟩).color = colorAt (i + j) := by
  intro cs
  induction cs with
  | nil => intro i j hj; exact absurd hj (by simp [mkTraces])
  | cons c rest ih =>
    intro i j hj
    cases j with
    | zero => simp [mkTraces]
    | succ n =>
      have := ih (i + 1) n (by simpa [mkTraces, Nat.succ_lt_succ_iff] using hj)
      simpa [mkTraces, Nat.add_assoc, Nat.add_comm 1 n] using this

/-- Every selected curve yields a trace whose x series is that curve's
values and whose y series is the depth column's values. -/
theorem mkTraces_mem (df : Df) (depth_col : String) :
    ∀ (cs : List String) (i : Nat) (c : String), c ∈ cs →
      ∃ t ∈ mkTraces df depth_col i cs,
        t.name = c ∧ t.x = df.col c ∧ t.y = df.col depth_col := by
  intro cs
  induction cs with
  | nil => intro i c hc; exact absurd hc (List.not_mem_nil c)
  | cons a rest ih =>
    intro i c hc
    rcases List.mem_cons.mp hc with h | h
    · subst h
      exact ⟨_, List.mem_cons_self _ _, rfl, rfl, rfl⟩
    · obtain ⟨t, ht, hn, hx, hy⟩ := ih (i + 1) c h
      exact ⟨t, List.mem_cons_of_mem _ ht, hn, hx, hy⟩

/-- Case analysis of the plotter's curve selection (shared helper
behind several theorems below). -/
theorem plot_selection_cases (df : Df) (depth_col : String) :
    (available_curves.filter (fun c => df.columns.contains c) ≠ [] →
      ∃ fig, plot_basic_logs df depth_col = some fig ∧
        fig.traces.map Trace.name =
          available_curves.filter (fun c => df.columns.contains c)) ∧
    (available_curves.filter (fun c => df.columns.contains c) = [] →
      df.columns.erase depth_col ≠ [] →
      ∃ fig, plot_basic_logs df depth_col = some fig ∧
        fig.traces.map Trace.name = df.columns.erase depth_col) ∧
    (available_curves.filter (fun c => df.columns.contains c) = [] →
      df.columns.erase depth_col = [] →
      plot_basic_logs df depth_col = none) := by
  refine ⟨?_, ?_, ?_⟩
  · intro h
    refine ⟨⟨mkTraces df depth_col 0
        (available_curves.filter (fun c => df.columns.contains c)), true⟩, ?_, ?_⟩
    · unfold plot_basic_logs
      simp only [List.isEmpty_iff]
      rw [if_neg h, if_neg h]
    · exact mkTraces_map_name df depth_col _ 0
  · intro h he
    refine ⟨⟨mkTraces df depth_col 0 (df.columns.erase depth_col), true⟩, ?_, ?_⟩
    · unfold plot_basic_logs
      simp only [List.isEmpty_iff]
      rw [if_pos h, if_neg he]
    · exact mkTraces_map_name df depth_col _ 0
  · intro h he
    unfold plot_basic_logs
    simp only [List.isEmpty_iff]
    rw [if_pos h, if_pos he]

/-- C8: curve selection of the plotter.  The vocabulary curves present
in the dataframe are the plotted set; an empty intersection falls back
to the columns with the depth column removed; and when that too is
empty the plotter returns no chart at all. -/
theorem plot_basic_logs_selection (df : Df) (depth_col : String) :
    (available_curves.filter (fun c => df.columns.contains c) ≠ [] →
      ∃ fig, plot_basic_logs df depth_col = some fig ∧
        fig.traces.map Trace.name =
          available_curves.filter (fun c => df.columns.contains c)) ∧
    (available_curves.filter (fun c => df.columns.contains c) = [] →
      df.columns.erase depth_col ≠ [] →
      ∃ fig, plot_basic_logs df depth_col = some fig ∧
        fig.traces.map Trace.name = df.columns.erase depth_col) ∧
    (available_curves.filter (fun c => df.columns.contains c) = [] →
      df.columns.erase depth_col = [] →
      plot_basic_logs df depth_col = none) :=
  plot_selection_cases df depth_col

/-- C8 witness: a dataset holding only a depth column has no vocabulary
curve and an empty fallback, so the plotter returns nothing. -/
theorem plot_basic_logs_selection_witness :
    plot_basic_logs ⟨[("DEPTH", [1])]⟩ "DEPTH" = none :=
  (plot_basic_logs_selection ⟨[("DEPTH", [1])]⟩ "DEPTH").2.2 (by decide) (by decide)

/-- C9: on the vocabulary path the traces appear in the fixed
vocabulary order (not the dataframe's column order), each trace's color
is the palette entry at the trace's position modulo the 7-entry palette
length, and the plotter is a pure function, so repeated invocations on
identical inputs agree. -/
theorem plot_basic_logs_vocab_order_colors (df : Df) (depth_col : String)
    (h : available_curves.filter (fun c => df.columns.contains c) ≠ []) :
    ∃ fig, plot_basic_logs df depth_col = some fig ∧
      fig.traces.map Trace.name =
        available_curves.filter (fun c => df.columns.contains c) ∧
      colors.length = 7 ∧
      (∀ i (hi : i < fig.traces.length),
        (fig.traces.get ⟨i, hi⟩).color = colors.getD (i % colors.length) "") ∧
      plot_basic_logs df depth_col = plot_basic_logs df depth_col := by
  refine ⟨⟨mkTraces df depth_col 0
      (available_curves.filter (fun c => df.columns.contains c)), true⟩,
    ?_, mkTraces_map_name df depth_col _ 0, rfl, ?_, rfl⟩
  · unfold plot_basic_logs
    simp only [List.isEmpty_iff]
    rw [if_neg h, if_neg h]
  · intro i hi
    have := mkTraces_get_color df depth_col
      (available_curves.filter (fun c => df.columns.contains c)) 0 i hi
    simpa [colorAt] using this

/-- C9 witness: the vocabulary path at a dataset holding a depth column
and one vocabulary curve. -/
theorem plot_basic_logs_vocab_order_colors_witness :
    ∃ fig, plot_basic_logs ⟨[("DEPTH", [1]), ("GR", [2])]⟩ "DEPTH" = some fig ∧
      fig.traces.map Trace.name =
        available_curves.filter
          (fun c => (Df.mk [("DEPTH", [1]), ("GR", [2])]).columns.contains c) ∧
      colors.length = 7 ∧
      (∀ i (hi : i < fig.traces.length),
        (fig.traces.get ⟨i, hi⟩).color = colors.getD (i % colors.length) "") ∧
      plot_basic_logs ⟨[("DEPTH", [1]), ("GR", [2])]⟩ "DEPTH" =
        plot_basic_logs ⟨[("DEPTH", [1]), ("GR", [2])]⟩ "DEPTH" :=
  plot_basic_logs_vocab_order_colors ⟨[("DEPTH", [1]), ("GR", [2])]⟩ "DEPTH" (by decide)

/-- C10: a depth column that is itself a vocabulary curve is not
excluded on the vocabulary path — the plotter emits a trace for it
plotted against itself; the depth column is removed from the traces
only on the fallback path (stated under the data model's unique-name
invariant). -/
theorem plot_basic_logs_depth_self_trace (df : Df) (depth_col : String) :
    (depth_col ∈ available_curves → depth_col ∈ df.columns →
      ∃ fig, plot_basic_logs df depth_col = some fig ∧
        ∃ t ∈ fig.traces, t.name = depth_col ∧ t.x = t.y) ∧
    (df.columns.Nodup →
      available_curves.filter (fun c => df.columns.contains c) = [] →
      ∀ fig, plot_basic_logs df depth_col = some fig →
        depth_col ∉ fig.traces.map Trace.name) := by
  constructor
  · intro hv hm
    have hmem : depth_col ∈ available_curves.filter (fun c => df.columns.contains c) := by
      rw [List.mem_filter]
      exact ⟨hv, contains_eq_true_of_mem hm⟩
    have hne : available_curves.filter (fun c => df.columns.contains c) ≠ [] :=
      List.ne_nil_of_mem hmem
    refine ⟨⟨mkTraces df depth_col 0
        (available_curves.filter (fun c => df.columns.contains c)), true⟩, ?_, ?_⟩
    · unfold plot_basic_logs
      simp only [List.isEmpty_iff]
      rw [if_neg hne, if_neg hne]
    · obtain ⟨t, ht, hn, hx, hy⟩ := mkTraces_mem df depth_col _ 0 depth_col hmem
      exact ⟨t, ht, hn, by rw [hx, hy]⟩
  · intro hnd hfil fig hfig
    have hnames : fig.traces.map Trace.name = df.columns.erase depth_col := by
      by_cases he : df.columns.erase depth_col = []
      · have hnone := (plot_selection_cases df depth_col).2.2 hfil he
        rw [hfig] at hnone
        exact absurd hnone (by simp)
      · obtain ⟨fig2, hfig2, hn2⟩ := (plot_selection_cases df depth_col).2.1 hfil he
        rw [hfig] at hfig2
        rw [← Option.some_inj.mp hfig2] at hn2
        exact hn2
    rw [hnames]
    intro hmem
    exact (List.Nodup.mem_erase_iff hnd).mp hmem |>.1 rfl

/-- C10 witness: with `"GR"` as the depth column of a dataset whose
only column is `"GR"`, the vocabulary path emits the self-trace. -/
theorem plot_basic_logs_depth_self_trace_witness :
    ∃ fig, plot_basic_logs ⟨[("GR", [1, 2])]⟩ "GR" = some fig ∧
      ∃ t ∈ fig.traces, t.name = "GR" ∧ t.x = t.y :=
  (plot_basic_logs_depth_self_trace ⟨[("GR", [1, 2])]⟩ "GR").1 (by decide) (by decide)

/-- Projecting the names out of a name-predicate filter of columns. -/
theorem map_fst_filter (dc : String) :
    ∀ l : List (String × List Val),
      (l.filter (fun p => ¬ p.1 = dc)).map Prod.fst =
        (l.map Prod.fst).filter (fun n => ¬ n = dc) := by
  intro l
  induction l with
  | nil => rfl
  | cons p t ih =>
    simp only [List.map_cons, List.filter_cons]
    by_cases hp : p.1 = dc
    · simpa [hp] using ih
    · simpa [hp] using ih

/-- C3: the Table→LAS converter emits the resolved depth column first,
as the index curve with the fixed unit `"m"` and the depth values, and
every remaining column after it with lasio's default (empty) unit, in
column order. -/
theorem csv_to_las_units (df : Df) (w : Option (List (String × String)))
    (h : df.columns ≠ []) :
    ∃ dc las, get_depth_column df = some dc ∧ csv_to_las df w = some las ∧
      las.curves.map Curve.mnemonic = dc :: df.columns.filter (fun n => ¬ n = dc) ∧
      las.curves.head?.map Curve.unit = some "m" ∧
      las.curves.head?.map Curve.data = some (df.col dc) ∧
      ∀ c ∈ las.curves.tail, c.unit = "" := by
  obtain ⟨dc, heq, -⟩ := get_depth_column_spec df h
  refine ⟨dc,
    { well := w.getD []
      curves := Curve.mk dc "m" (df.col dc)
        :: (df.cols.filter (fun p => ¬ p.1 = dc)).map (fun p => Curve.mk p.1 "" p.2) },
    heq, ?_, ?_, rfl, rfl, ?_⟩
  · unfold csv_to_las
    rw [heq]
  · simp only [List.map_cons, List.map_map]
    rw [show (Curve.mnemonic ∘ fun p : String × List Val =>
        Curve.mk p.1 "" p.2) = Prod.fst from rfl]
    rw [map_fst_filter dc df.cols]
    rfl
  · intro c hc
    simp only [List.tail_cons, List.mem_map] at hc
    obtain ⟨p, -, hp⟩ := hc
    rw [← hp]

/-- C3 witness: the converter applied to a two-column dataset whose
depth column is not first. -/
theorem csv_to_las_units_witness :
    ∃ dc las,
      get_depth_column ⟨[("GR", [5]), ("DEPTH", [9])]⟩ = some dc ∧
      csv_to_las ⟨[("GR", [5]), ("DEPTH", [9])]⟩ none = some las ∧
      las.curves.map Curve.mnemonic =
        dc :: (Df.mk [("GR", [5]), ("DEPTH", [9])]).columns.filter (fun n => ¬ n = dc) ∧
      las.curves.head?.map Curve.unit = some "m" ∧
      las.curves.head?.map Curve.data =
        some ((Df.mk [("GR", [5]), ("DEPTH", [9])]).col dc) ∧
      ∀ c ∈ las.curves.tail, c.unit = "" :=
  csv_to_las_units ⟨[("GR", [5]), ("DEPTH", [9])]⟩ none (by decide)

/-- C4: supplying well metadata `WELL = "W-1", FLD = "North"` produces
a document whose well-info section holds exactly those two entries, in
particular no `COMP` and no `DATE` entry. -/
theorem csv_to_las_well_info (df : Df) (h : df.columns ≠ []) :
    ∃ las,
      csv_to_las df (some [("WELL", "W-1"), ("FLD", "North")]) = some las ∧
      las.well = [("WELL", "W-1"), ("FLD", "North")] ∧
      "COMP" ∉ las.well.map Prod.fst ∧ "DATE" ∉ las.well.map Prod.fst := by
  obtain ⟨dc, heq, -⟩ := get_depth_column_spec df h
  refine ⟨
    { well := [("WELL", "W-1"), ("FLD", "North")]
      curves := Curve.mk dc "m" (df.col dc)
        :: (df.cols.filter (fun p => ¬ p.1 = dc)).map (fun p => Curve.mk p.1 "" p.2) },
    ?_, rfl, by simp, by simp⟩
  unfold csv_to_las
  rw [heq]
  rfl

/-- Looking a name up after filtering away the entries of a different
name finds the same entry as in the unfiltered list. -/
theorem find?_filter_ne (n dc : String) (hne : ¬ n = dc) :
    ∀ l : List (String × List Val),
      (l.filter (fun p => ¬ p.1 = dc)).find? (fun p => p.1 = n) =
        l.find? (fun p => p.1 = n) := by
  intro l
  induction l with
  | nil => rfl
  | cons p t ih =>
    by_cases hp : p.1 = dc
    · have hpn : ¬ p.1 = n := by rw [hp]; exact fun h => hne h.symm
      rw [List.filter_cons, if_neg (by simp [hp]), ih,
        List.find?_cons_of_neg _ (by simp [hpn])]
    · by_cases hpn : p.1 = n
      · rw [List.filter_cons, if_pos (by simpa using hp),
          List.find?_cons_of_pos _ (by simpa using hpn),
          List.find?_cons_of_pos _ (by simpa using hpn)]
      · rw [List.filter_cons, if_pos (by simpa using hp),
          List.find?_cons_of_neg _ (by simp [hpn]),
          List.find?_cons_of_neg _ (by simp [hpn]), ih]

/-- A column rename whose old name is absent leaves the column list
unchanged. -/
theorem rename_map_id (old new : String) :
    ∀ l : List (String × List Val), old ∉ l.map Prod.fst →
      l.map (fun p => if p.1 = old then (new, p.2) else p) = l := by
  intro l
  induction l with
  | nil => intro _; rfl
  | cons p t ih =>
    intro h
    simp only [List.map_cons, List.mem_cons] at h
    push_neg at h
    rw [List.map_cons, if_neg (fun hh => h.1 hh.symm), ih h.2]

/-- Turning columns into unit-less curves and back is the identity. -/
theorem curve_pair_id :
    ∀ l : List (String × List Val),
      (l.map (fun p => Curve.mk p.1 "" p.2)).map (fun c => (c.mnemonic, c.data)) = l := by
  intro l
  induction l with
  | nil => rfl
  | cons p t ih => simp [ih]

/-- Moving a member of a duplicate-free list to the front, dropping it
from its old place, is a permutation. -/
theorem cons_filter_perm (dc : String) :
    ∀ l : List String, l.Nodup → dc ∈ l →
      List.Perm (dc :: l.filter (fun n => ¬ n = dc)) l := by
  intro l
  induction l with
  | nil => intro _ h; exact absurd h (List.not_mem_nil dc)
  | cons a t ih =>
    intro hnd hmem
    by_cases ha : a = dc
    · subst ha
      have hat : a ∉ t := (List.nodup_cons.mp hnd).1
      have hft : t.filter (fun n => ¬ n = a) = t := by
        rw [List.filter_eq_self]
        intro x hx
        have hxa : ¬ x = a := fun h => hat (h ▸ hx)
        simpa using hxa
      rw [List.filter_cons, if_neg (by simp), hft]
    · have hmt : dc ∈ t := by
        rcases List.mem_cons.mp hmem with h | h
        · exact absurd h.symm ha
        · exact h
      have hp := ih (List.nodup_cons.mp hnd).2 hmt
      rw [List.filter_cons, if_pos (by simpa using ha)]
      exact (List.Perm.swap a dc _).trans (hp.cons a)

/-- The LAS→Table converter on a parsed document with a unit-bearing
index curve: the indexed dataframe is materialised and the rename of
the literal column name `"index"` is applied. -/
theorem las_to_csv_cons (well : List (String × String)) (depth : Curve)
    (rest : List Curve) (h : ¬ depth.unit = "") :
    las_to_csv ⟨well, depth :: rest⟩ =
      some (pandasRename
        ⟨(depth.mnemonic, depth.data) :: rest.map (fun c => (c.mnemonic, c.data))⟩
        "index" depth.unit) := by
  unfold las_to_csv LASFile.index_unit
  simp [h]

/-- C4 witness: the well-info block at a concrete one-column dataset. -/
theorem csv_to_las_well_info_witness :
    ∃ las,
      csv_to_las ⟨[("DEPTH", [1])]⟩ (some [("WELL", "W-1"), ("FLD", "North")]) = some las ∧
      las.well = [("WELL", "W-1"), ("FLD", "North")] ∧
      "COMP" ∉ las.well.map Prod.fst ∧ "DATE" ∉ las.well.map Prod.fst :=
  csv_to_las_well_info ⟨[("DEPTH", [1])]⟩ (by decide)

/-- C1 counterexample: the round trip does not preserve every curve
name.  On the dataset with columns `DEPTH` and `index`, the Table→LAS
converter emits the `index` curve unchanged, but the LAS→Table
converter's `rename(columns={'index': depth_name})` then renames that
column to the document's depth label (here `"m"`, the fixed unit the
depth curve was written with): `"index"` is a column of the input and
not of the round-tripped output. -/
theorem csv_las_roundtrip_counterexample :
    (csv_to_las ⟨[("DEPTH", [1]), ("index", [2])]⟩ none).bind las_to_csv =
      some ⟨[("DEPTH", [1]), ("m", [2])]⟩ ∧
    "index" ∈ (Df.mk [("DEPTH", [1]), ("index", [2])]).columns ∧
    "index" ∉ (Df.mk [("DEPTH", [1]), ("m", [2])]).columns := by
  refine ⟨by decide, by decide, by decide⟩

/-- C1 (amended): for every dataset with at least one column, unique
column names, none of them the literal name `"index"`, converting to a
LAS document and back preserves the column-name multiset (the depth
column merely moves to the front) and every column's values, the depth
column's included — exactly, which subsumes "within the numeric
precision of the LAS text format" (serialisation and re-parsing of the
numerals is the LAS library's job and is modelled as exact). -/
theorem csv_las_roundtrip (df : Df) (w : Option (List (String × String)))
    (hne : df.columns ≠ []) (hnd : df.columns.Nodup)
    (hidx : "index" ∉ df.columns) :
    ∃ las df2, csv_to_las df w = some las ∧ las_to_csv las = some df2 ∧
      List.Perm df2.columns df.columns ∧
      ∀ n ∈ df.columns, df2.col n = df.col n := by
  obtain ⟨dc, heq, hdc⟩ := get_depth_column_spec df hne
  refine ⟨
    { well := w.getD []
      curves := Curve.mk dc "m" (df.col dc)
        :: (df.cols.filter (fun p => ¬ p.1 = dc)).map (fun p => Curve.mk p.1 "" p.2) },
    ⟨(dc, df.col dc) :: df.cols.filter (fun p => ¬ p.1 = dc)⟩, ?_, ?_, ?_, ?_⟩
  · unfold csv_to_las
    rw [heq]
  · rw [las_to_csv_cons (w.getD []) (Curve.mk dc "m" (df.col dc))
      ((df.cols.filter (fun p => ¬ p.1 = dc)).map (fun p => Curve.mk p.1 "" p.2))
      (show ¬ (Curve.mk dc "m" (df.col dc)).unit = "" from (by decide : ¬ "m" = ""))]
    congr 1
    unfold pandasRename
    congr 1
    rw [curve_pair_id]
    apply rename_map_id
    simp only [List.map_cons, List.mem_cons]
    push_neg
    constructor
    · exact fun h => hidx (h ▸ hdc)
    · intro hmem
      rw [map_fst_filter] at hmem
      exact hidx (List.mem_of_mem_filter hmem)
  · show List.Perm (((dc, df.col dc) :: df.cols.filter (fun p => ¬ p.1 = dc)).map Prod.fst) _
    rw [List.map_cons, map_fst_filter]
    exact cons_filter_perm dc df.columns hnd hdc
  · intro n hn
    by_cases hndc : n = dc
    · subst hndc
      show (((((n, df.col n) :: df.cols.filter (fun p => ¬ p.1 = n)).find?
          (fun p => p.1 = n)).map Prod.snd)).getD [] = _
      rw [List.find?_cons_of_pos _ (by simp)]
      rfl
    · show (((((dc, df.col dc) :: df.cols.filter (fun p => ¬ p.1 = dc)).find?
          (fun p => p.1 = n)).map Prod.snd)).getD [] = _
      rw [List.find?_cons_of_neg _ (by simp; exact fun h => hndc h.symm),
        find?_filter_ne n dc hndc]
      rfl

/-- C1 witness: the amended round trip applied at a concrete two-column
dataset. -/
theorem csv_las_roundtrip_witness :
    ∃ las df2,
      csv_to_las ⟨[("GR", [5]), ("DEPTH", [9])]⟩ none = some las ∧
      las_to_csv las = some df2 ∧
      List.Perm df2.columns (Df.mk [("GR", [5]), ("DEPTH", [9])]).columns ∧
      ∀ n ∈ (Df.mk [("GR", [5]), ("DEPTH", [9])]).columns,
        df2.col n = (Df.mk [("GR", [5]), ("DEPTH", [9])]).col n :=
  csv_las_roundtrip ⟨[("GR", [5]), ("DEPTH", [9])]⟩ none (by decide) (by decide) (by decide)

/-- C2: on a successfully parsed LAS document the depth index is
materialised as an explicit first column, but that column keeps the
depth curve's mnemonic: `reset_index()` names the new column after the
index's name (the mnemonic lasio's `df()` gave it), so the
`rename(columns={'index': depth_name})` call finds no column named
`"index"` and the computed depth label (`"M"` here, the declared index
unit) is never applied.  Concretely: a document with index curve
`DEPT` (unit `M`) and curve `GR` comes back with columns
`["DEPT", "GR"]`, not `["M", "GR"]`. -/
theorem las_to_csv_keeps_mnemonic :
    las_to_csv
        { well := [], curves := [⟨"DEPT", "M", [100, 101]⟩, ⟨"GR", "API", [50, 60]⟩] } =
      some ⟨[("DEPT", [100, 101]), ("GR", [50, 60])]⟩ ∧
    LASFile.index_unit
        { well := [], curves := [⟨"DEPT", "M", [100, 101]⟩, ⟨"GR", "API", [50, 60]⟩] } = "M" ∧
    "M" ∉ (Df.mk [("DEPT", [100, 101]), ("GR", [50, 60])]).columns ∧
    "DEPTH" ∉ (Df.mk [("DEPT", [100, 101]), ("GR", [50, 60])]).columns := by
  refine ⟨by decide, by decide, by decide, by decide⟩
